import Mathlib

/-!
Verification of `diff_cover/diff_cover_tool.py` (williamfzc/diff_cover).

The file shallowly embeds the tool's single source file:
  * `parse_coverage_args` — the argparse configuration, modelled as a
    left-to-right token parser implementing the declared options with
    argparse's documented behaviour (mutually exclusive groups, `nargs`,
    defaults, `choices`, option-vs-positional classification).  The bare
    `--` separator and exotic `float()` forms (exponents, inf/nan) are not
    modelled; the modelled success set is otherwise faithful.
  * `generate_coverage_report` — modelled as a trace of I/O and
    construction events paired with the resulting percentage; external
    collaborators (git diff, difile directory comparison, the report
    generators' rendered output) enter as abstract inputs carried by the
    configuration record.
  * `main` — the gate comparing the aggregate percentage with the
    `--fail-under` threshold; percentages are modelled as rationals.

Values of machine floats are modelled as rationals; the comparisons the
claims exercise (79.9 vs 80, defaults) are exact in both models.
-/

/-- Outcome of `main`: the returned exit code and the messages logged with
`LOGGER.error`. -/
structure MainOutcome where
  exitCode : Nat
  loggedErrors : List String
deriving DecidableEq, Repr

/-- The error message format string of `main`
(`"Failure. Coverage is below {}%."` formatted with `fail_under`). -/
def failure_message (fail_under : ℚ) : String :=
  "Failure. Coverage is below " ++ toString fail_under ++ "%."

/-- Lines 277–281 of the source: `if percent_covered >= fail_under: return 0`
else log the failure message and `return 1`. -/
def main_gate (percent_covered fail_under : ℚ) : MainOutcome :=
  if percent_covered ≥ fail_under then ⟨0, []⟩
  else ⟨1, [failure_message fail_under]⟩

/-! ## The `generate_coverage_report` pipeline

External collaborators (the other `diff_cover` modules and the `difile`
library, which are not part of the shown source file) are abstracted:
the git diff dictionary, the directory-comparison result and the aggregate
percentage are inputs carried by the configuration record, and the pipeline
is modelled as the sequence of construction / I/O events the source
performs, in source order. -/

/-- One coverage XML input: its path, whether `etree.parse` succeeds on it,
and (for the spec-modelled coverage model) the file paths the report
mentions. -/
structure XmlInput where
  path : String
  wellFormed : Bool
  filesMentioned : List String
deriving DecidableEq, Repr

/-- One line reported by `difile.compare_dir`: a posix file path and a
1-based line number (`each_line.line_no`). -/
structure DiffLine where
  filePath : String
  lineNo : Nat
deriving DecidableEq, Repr

/-- The keyword arguments `generate_coverage_report` forwards to
`GitDiffReporter.__init__` (and, in directory mode, to
`FileDiffReporter.__init__` minus the popped `td`). -/
structure GitDiffReporterArgs where
  compare_branch : String
  diff_range : String
  ignore_staged : Bool
  ignore_unstaged : Bool
  exclude : Option (List String)
deriving DecidableEq, Repr

/-- The parameters of `generate_coverage_report`, plus the abstract results
of its external collaborators:
`dirCompare` stands for `difile.Difile().compare_dir`, `gitDiffDict` for
`GitDiffReporter._git_diff()`, and `totalPercent` for
`StringReportGenerator.total_percent_covered()`. -/
structure GenerateArgs where
  coverage_xml : List XmlInput
  compare_branch : String
  html_report : Option String
  css_file : Option String
  json_report : Option String
  ignore_staged : Bool
  ignore_unstaged : Bool
  exclude : Option (List String)
  src_roots : List String
  diff_range : String
  target_dir : String
  diff_json : String
  dirCompare : String → String → List (List DiffLine)
  gitDiffDict : List (String × List Nat)
  totalPercent : ℚ

/-- The diff reporter `generate_coverage_report` constructs: the dynamically
defined `FileDiffReporter` subclass when `target_dir` is truthy (non-empty),
otherwise a plain `GitDiffReporter`. -/
inductive DiffReporter where
  | gitDiff (args : GitDiffReporterArgs)
  | fileDiff (args : GitDiffReporterArgs) (target_dir : String)
deriving DecidableEq, Repr

/-- The reporter-constructor keyword arguments taken from the generate
parameters (lines 205–213 of the source). -/
def gitArgsOf (g : GenerateArgs) : GitDiffReporterArgs :=
  ⟨g.compare_branch, g.diff_range, g.ignore_staged, g.ignore_unstaged, g.exclude⟩

/-- Lines 180–213: `if target_dir:` choose the `FileDiffReporter` subclass,
else the ordinary `GitDiffReporter`. -/
def build_diff_reporter (g : GenerateArgs) : DiffReporter :=
  if g.target_dir ≠ "" then DiffReporter.fileDiff (gitArgsOf g) g.target_dir
  else DiffReporter.gitDiff (gitArgsOf g)

/-! ### Python string operations used by `FileDiffReporter._git_diff`

`key.startswith(td)` and `key.replace(td + "/", "")` are modelled on
character lists.  `replaceAllF` is Python's `str.replace` with an empty
replacement string: a left-to-right, non-overlapping removal of every
occurrence of the pattern.  A fuel argument (always instantiated with the
string length, which suffices) keeps the recursion structural so that
concrete instances evaluate by `decide`. -/

/-- `p` is a prefix of `s` (Python `startswith` on characters). -/
def isPre : List Char → List Char → Bool
  | [], _ => true
  | _ :: _, [] => false
  | a :: as, b :: bs => a = b && isPre as bs

/-- Remove every occurrence of `pat` from `s`, scanning left to right
(Python `s.replace(pat, "")` for non-empty `pat`). -/
def removeAllF : Nat → List Char → List Char → List Char
  | _, [], _ => []
  | 0, s, _ => s
  | fuel + 1, c :: rest, pat =>
    if pat ≠ [] && isPre pat (c :: rest) then
      removeAllF fuel ((c :: rest).drop pat.length) pat
    else c :: removeAllF fuel rest pat

/-- Python `key.replace(pat, "")`. -/
def pyRemoveAll (key pat : String) : String :=
  ⟨removeAllF key.data.length key.data pat.data⟩

/-- Lines 196–197: strip the target-directory prefix from a compared file's
key (`if key.startswith(td): key = key.replace(td + "/", "")`). -/
def stripTargetDir (target_dir key : String) : String :=
  if isPre target_dir.data key.data then pyRemoveAll key (target_dir ++ "/")
  else key

/-- Decidable "pattern occurs nowhere in the list" check, used as the
side-condition under which stripping removes exactly the prefix. -/
def noOccurB (pat l : List Char) : Bool :=
  l.tails.all (fun t => !(isPre pat t))

/-- Append `v` to the dict entry for key `k`, creating the entry if absent —
the `if key not in diff_result: diff_result[key] = []` plus
`diff_result[key].append(...)` idiom, on an insertion-ordered association
list (a Python dict). -/
def dictAppend (d : List (String × List Nat)) (k : String) (v : Nat) :
    List (String × List Nat) :=
  if d.any (fun p => p.1 == k) then
    d.map (fun p => if p.1 == k then (p.1, p.2 ++ [v]) else p)
  else d ++ [(k, [v])]

/-- Lines 192–201: fold one compared file into the dict: skip empty files,
key from the first line's path with the target prefix stripped, append every
line number. -/
def addFile (target_dir : String) (d : List (String × List Nat)) :
    List DiffLine → List (String × List Nat)
  | [] => d
  | l :: ls =>
    let key := stripTargetDir target_dir l.filePath
    (l :: ls).foldl (fun acc e => dictAppend acc key e.lineNo) d

/-- The body of `FileDiffReporter._git_diff`'s `compare`: fold every
compared file of the `difile` result into the dict. -/
def fileModeGitDiff (target_dir : String) (result : List (List DiffLine)) :
    List (String × List Nat) :=
  result.foldl (addFile target_dir) []

/-- `diff._git_diff()` for the reporter `generate_coverage_report` built:
in directory mode `compare(src_roots[0], self.target_dir)` over the
`difile` comparison, otherwise the (abstract) git diff dictionary. -/
def reporterGitDiffResult (g : GenerateArgs) : List (String × List Nat) :=
  match build_diff_reporter g with
  | DiffReporter.fileDiff _ td =>
    fileModeGitDiff td (g.dirCompare (g.src_roots.headD "") td)
  | DiffReporter.gitDiff _ => g.gitDiffDict

/-- Modelled from the spec: the external `difile` library's `compare_dir`
(not part of the shown source), which in directory-comparison mode reports,
for each compared file, every line present in that file (full-file mode).
`files` lists each compared file's path together with its number of lines;
lines are numbered from 1. -/
def compareDirFullFile (files : List (String × Nat)) : List (List DiffLine) :=
  files.map (fun pn => (List.range pn.2).map (fun i => ⟨pn.1, i + 1⟩))

/-- The construction and I/O events `generate_coverage_report` performs, in
order. -/
inductive Event where
  | buildGitDiffReporter (args : GitDiffReporterArgs)
  | buildFileDiffReporter (args : GitDiffReporterArgs) (target_dir : String)
  | parseXml (path : String)
  | buildXmlCoverageReporter (src_roots : List String)
  | writeDiffJson (path : String) (dict : List (String × List Nat))
  | buildHtmlGenerator
  | writeHtmlFile (path : String)
  | writeCssFile (path : String)
  | buildJsonGenerator
  | writeJsonFile (path : String)
  | buildStringGenerator
  | writeStdout
deriving DecidableEq, Repr

/-- Line 215, `[etree.parse(xml_root) for xml_root in coverage_xml]`: parse
each report in order; a malformed report raises, keeping the events of the
reports already parsed and aborting the rest (second component `false`). -/
def parseEvents : List XmlInput → List Event × Bool
  | [] => ([], true)
  | x :: xs =>
    if x.wellFormed then
      let r := parseEvents xs
      (Event.parseXml x.path :: r.1, r.2)
    else ([], false)

/-- The reporter-construction event for the branch taken at lines 205–213. -/
def diffReporterEvent (g : GenerateArgs) : Event :=
  match build_diff_reporter g with
  | DiffReporter.fileDiff a td => Event.buildFileDiffReporter a td
  | DiffReporter.gitDiff a => Event.buildGitDiffReporter a

/-- Lines 218–238: the optional `diff_json` dump followed by the optional
HTML (plus optional CSS) or JSON artifact. -/
def reportMid (g : GenerateArgs) : List Event :=
  (if g.diff_json ≠ "" then
    [Event.writeDiffJson g.diff_json (reporterGitDiffResult g)]
  else []) ++
  (match g.html_report with
   | some h =>
     [Event.buildHtmlGenerator, Event.writeHtmlFile h] ++
     (match g.css_file with
      | some c => [Event.writeCssFile c]
      | none => [])
   | none =>
     match g.json_report with
     | some j => [Event.buildJsonGenerator, Event.writeJsonFile j]
     | none => [])

/-- Lines 218–245: the events after the coverage reports parsed
successfully — the optional `diff_json` dump, the optional HTML (plus
optional CSS) or JSON artifact, then the string report on stdout. -/
def reportPhase (g : GenerateArgs) : List Event :=
  reportMid g ++ [Event.buildStringGenerator, Event.writeStdout]

/-- Lines 171–245: the whole of `generate_coverage_report`, as its ordered
event trace and its return value (`total_percent_covered()`, or `none` when
an exception aborted the run). -/
def generate_coverage_report (g : GenerateArgs) : List Event × Option ℚ :=
  let pr := parseEvents g.coverage_xml
  if pr.2 then
    (diffReporterEvent g :: pr.1 ++
      Event.buildXmlCoverageReporter g.src_roots :: reportPhase g,
     some g.totalPercent)
  else (diffReporterEvent g :: pr.1, none)

/-- Events that open or write an output artifact (a file or stdout). -/
def isOutputEvent : Event → Bool
  | Event.writeDiffJson _ _ => true
  | Event.writeHtmlFile _ => true
  | Event.writeCssFile _ => true
  | Event.writeJsonFile _ => true
  | Event.writeStdout => true
  | _ => false

/-- Events that construct a report generator. -/
def isGeneratorBuildEvent : Event → Bool
  | Event.buildHtmlGenerator => true
  | Event.buildJsonGenerator => true
  | Event.buildStringGenerator => true
  | _ => false

/-! ### Remaining definitions (reporter arguments, sample
configurations, and the `parse_coverage_args` model) -/

/-- The arguments `generate_coverage_report` passes to
`XmlCoverageReporter.__init__` at line 216: the parsed XML trees and the
source roots, and nothing else. -/
structure XmlCoverageReporterArgs where
  xml_roots : List XmlInput
  src_roots : List String
deriving DecidableEq, Repr

/-- Line 216: `coverage = XmlCoverageReporter(xml_roots, src_roots)`. -/
def buildXmlCoverageReporterArgs (g : GenerateArgs) : XmlCoverageReporterArgs :=
  ⟨g.coverage_xml, g.src_roots⟩

/-- Modelled from the spec: the Coverage Model built by `XmlCoverageReporter`
(whose class body is not part of the shown source file) exposes per-file
data for every file mentioned by any supplied coverage report.  Whatever the
class does, it is a function of its constructor arguments alone. -/
def coverageModelFiles (a : XmlCoverageReporterArgs) : List String :=
  a.xml_roots.foldr (fun x acc => x.filesMentioned ++ acc) []

/-- A shared sample configuration for concrete instances. -/
def baseArgs : GenerateArgs where
  coverage_xml := [⟨"coverage.xml", true, ["a.py"]⟩]
  compare_branch := "origin/master"
  html_report := none
  css_file := none
  json_report := none
  ignore_staged := false
  ignore_unstaged := false
  exclude := none
  src_roots := ["src/main/java", "src/test/java"]
  diff_range := "..."
  target_dir := ""
  diff_json := ""
  dirCompare := fun _ _ => []
  gitDiffDict := [("a.py", [1, 2])]
  totalPercent := 100

/-- The C2 witness configuration: the second coverage report is malformed
and an HTML report is requested. -/
def c2args : GenerateArgs :=
  { baseArgs with
    coverage_xml := [⟨"coverage.xml", true, ["a.py"]⟩,
      ⟨"broken.xml", false, []⟩]
    html_report := some "report.html" }

/-- The C9 witness configuration: a JSON (non-HTML) run that nevertheless
supplies a CSS file path. -/
def c9args : GenerateArgs :=
  { baseArgs with
    json_report := some "r.json"
    css_file := some "style.css" }

/-- 1-based line numbers `[1, …, n]` — every line present in an `n`-line
file. -/
def oneTo (n : Nat) : List Nat := (List.range n).map (fun i => i + 1)

/-- The C5/C10 witness configuration: directory-comparison mode against
`build`, with a three-line compared file `build/a.py`. -/
def c5args : GenerateArgs :=
  { baseArgs with
    target_dir := "build"
    src_roots := ["src"]
    dirCompare := fun _ _ => compareDirFullFile [("build/a.py", 3)] }

/-! ## `parse_coverage_args` (claims C3, C7)

Lines 41–168 declare the argparse configuration.  The parser itself is the
standard library; it is modelled as a left-to-right pass over the tokens
with argparse's behaviour for the declared options:
  * an option consuming one value rejects a missing or option-like value;
  * the mutually exclusive group `--html-report` / `--json-report` fails as
    soon as the second of the two is seen;
  * `nargs` is greedy: a `+`-option consumes the maximal run of
    non-option-like tokens and requires at least one;
  * non-option tokens form the single positional chunk `coverage_xml`
    (`nargs='+'`, required); a second separate chunk is an
    "unrecognized arguments" error;
  * a token is option-like when it starts with `-`, has length at least
    two and does not look like a negative number
    (argparse's `-\d+` / `-\d*\.\d+` matcher, applicable since no declared
    option looks like a negative number);
  * `--fail-under` converts its value with `float()` (plain decimal forms
    modelled; exponent/inf/nan forms and the bare `--` separator are not);
  * `--version` ends the process and yields no parsed arguments;
  * defaults as declared, in particular `--fail-under` defaults to
    `float('0')`. -/

/-- The dictionary `parse_coverage_args` returns. -/
structure ParsedArgs where
  coverage_xml : List String
  html_report : Option String
  json_report : Option String
  external_css_file : Option String
  compare_branch : String
  fail_under : ℚ
  ignore_staged : Bool
  ignore_unstaged : Bool
  exclude : Option (List String)
  src_roots : List String
  diff_range : String
  target_dir : String
  diff_json : String
deriving DecidableEq, Repr

/-- The declared argparse defaults (lines 57–166). -/
def initialArgs : ParsedArgs where
  coverage_xml := []
  html_report := none
  json_report := none
  external_css_file := none
  compare_branch := "origin/master"
  fail_under := 0
  ignore_staged := false
  ignore_unstaged := false
  exclude := none
  src_roots := ["src/main/java", "src/test/java"]
  diff_range := "..."
  target_dir := ""
  diff_json := ""

def digitsOnly (cs : List Char) : Bool := cs.all (fun c => c.isDigit)

def digitsVal (cs : List Char) : Nat :=
  cs.foldl (fun n c => 10 * n + (c.toNat - 48)) 0

/-- argparse's negative-number matcher `-\d+` / `-\d*\.\d+`. -/
def isNegNum (s : String) : Bool :=
  match s.data with
  | '-' :: rest =>
    let ip := rest.takeWhile (fun c => c ≠ '.')
    let rp := rest.dropWhile (fun c => c ≠ '.')
    (match rp with
     | [] => !ip.isEmpty && digitsOnly ip
     | _ :: frac => digitsOnly ip && !frac.isEmpty && digitsOnly frac)
  | _ => false

/-- argparse treats a token as an option when it starts with `-`, is not
`-` alone, and does not look like a negative number (no declared option
does). -/
def isOptionLike (s : String) : Bool :=
  match s.data with
  | '-' :: _ :: _ => !isNegNum s
  | _ => false

/-- Python `float()` on the plain decimal forms (`80`, `79.9`, `1.`, `.5`,
signs). -/
def parseDecimal (s : String) : Option ℚ :=
  let core : List Char → Option ℚ := fun body =>
    let ip := body.takeWhile (fun c => c ≠ '.')
    let rp := body.dropWhile (fun c => c ≠ '.')
    match rp with
    | [] =>
      if ip.isEmpty || !digitsOnly ip then none
      else some ((digitsVal ip : ℚ))
    | _ :: frac =>
      if (ip.isEmpty && frac.isEmpty) || !digitsOnly ip || !digitsOnly frac
      then none
      else some ((digitsVal ip : ℚ) +
        (digitsVal frac : ℚ) / (10 : ℚ) ^ frac.length)
  match s.data with
  | '-' :: rest => (core rest).map (fun q => -q)
  | '+' :: rest => core rest
  | body => core body

/-- The plain one-value options and the field each one sets. -/
def valueSetterFor (a : String) :
    Option (ParsedArgs → String → ParsedArgs) :=
  if a = "--external-css-file" then
    some (fun acc v => { acc with external_css_file := some v })
  else if a = "--compare-branch" then
    some (fun acc v => { acc with compare_branch := v })
  else if a = "--target_dir" then
    some (fun acc v => { acc with target_dir := v })
  else if a = "--diff_json" then
    some (fun acc v => { acc with diff_json := v })
  else none

/-- The `store_true` flags. -/
def flagSetterFor (a : String) : Option (ParsedArgs → ParsedArgs) :=
  if a = "--ignore-staged" then
    some (fun acc => { acc with ignore_staged := true })
  else if a = "--ignore-unstaged" then
    some (fun acc => { acc with ignore_unstaged := true })
  else none

/-- The `nargs='+'` options. -/
def multiSetterFor (a : String) :
    Option (ParsedArgs → List String → ParsedArgs) :=
  if a = "--exclude" then
    some (fun acc vs => { acc with exclude := some vs })
  else if a = "--src-roots" then
    some (fun acc vs => { acc with src_roots := vs })
  else none

/-- One step of the argument scan: consume the head token `a` (and the
value tokens it takes) or fail.  Returns the remaining tokens, the updated
accumulator, and the updated positionals-consumed flag. -/
def parseStep (a : String) (rest : List String) (acc : ParsedArgs)
    (pd : Bool) : Option (List String × ParsedArgs × Bool) :=
  if a = "--html-report" then
    match rest with
    | [] => none
    | v :: rest' =>
      if isOptionLike v || acc.json_report.isSome then none
      else some (rest', { acc with html_report := some v }, pd)
  else if a = "--json-report" then
    match rest with
    | [] => none
    | v :: rest' =>
      if isOptionLike v || acc.html_report.isSome then none
      else some (rest', { acc with json_report := some v }, pd)
  else if a = "--fail-under" then
    match rest with
    | [] => none
    | v :: rest' =>
      if isOptionLike v then none
      else
        match parseDecimal v with
        | none => none
        | some q => some (rest', { acc with fail_under := q }, pd)
  else if a = "--diff-range-notation" then
    match rest with
    | [] => none
    | v :: rest' =>
      if isOptionLike v then none
      else if v = "..." ∨ v = ".." then
        some (rest', { acc with diff_range := v }, pd)
      else none
  else if a = "--version" then none
  else
    match valueSetterFor a with
    | some f =>
      match rest with
      | [] => none
      | v :: rest' =>
        if isOptionLike v then none else some (rest', f acc v, pd)
    | none =>
      match flagSetterFor a with
      | some f => some (rest, f acc, pd)
      | none =>
        match multiSetterFor a with
        | some f =>
          if (rest.takeWhile (fun s => !isOptionLike s)).isEmpty then none
          else some (rest.dropWhile (fun s => !isOptionLike s),
            f acc (rest.takeWhile (fun s => !isOptionLike s)), pd)
        | none =>
          if isOptionLike a then none
          else if pd then none
          else some (rest.dropWhile (fun s => !isOptionLike s),
            { acc with
              coverage_xml :=
                a :: rest.takeWhile (fun s => !isOptionLike s) },
            true)

/-- The argument scan.  The fuel is always instantiated with the token
count, which suffices since every step consumes at least the head token;
it keeps the recursion structural. -/
def parseLoop : Nat → List String → ParsedArgs → Bool → Option ParsedArgs
  | _, [], acc, _ => if acc.coverage_xml.isEmpty then none else some acc
  | 0, _ :: _, _, _ => none
  | fuel + 1, a :: rest, acc, pd =>
    match parseStep a rest acc pd with
    | none => none
    | some (args', acc', pd') => parseLoop fuel args' acc' pd'

/-- Lines 41–168: `parse_coverage_args(argv)`; `none` is an argparse error
(or the `--version` exit). -/
def parse_coverage_args (argv : List String) : Option ParsedArgs :=
  parseLoop argv.length argv initialArgs false

/-- The parse result of the minimal argv `["coverage.xml"]`. -/
def c7sample : ParsedArgs :=
  { initialArgs with coverage_xml := ["coverage.xml"] }

/-! ### Trace lemmas and claim theorems -/

theorem parseEvents_mem (xs : List XmlInput) :
    ∀ e ∈ (parseEvents xs).1, ∃ p, e = Event.parseXml p := by
  induction xs with
  | nil => simp [parseEvents]
  | cons x xs ih =>
    intro e he
    by_cases hw : x.wellFormed
    · simp only [parseEvents, if_pos hw, List.mem_cons] at he
      rcases he with he | he
      · exact ⟨x.path, he⟩
      · exact ih e he
    · simp [parseEvents, if_neg hw] at he

theorem parseEvents_snd_false (xs : List XmlInput)
    (h : ∃ x ∈ xs, x.wellFormed = false) : (parseEvents xs).2 = false := by
  induction xs with
  | nil => simp at h
  | cons x xs ih =>
    by_cases hw : x.wellFormed
    · rcases h with ⟨y, hy, hyw⟩
      rcases List.mem_cons.mp hy with rfl | hy'
      · rw [hw] at hyw; cases hyw
      · simp only [parseEvents, if_pos hw]
        exact ih ⟨y, hy', hyw⟩
    · simp [parseEvents, if_neg hw]

theorem parseEvents_all_wf (xs : List XmlInput)
    (h : ∀ x ∈ xs, x.wellFormed = true) :
    parseEvents xs = (xs.map (fun x => Event.parseXml x.path), true) := by
  induction xs with
  | nil => simp [parseEvents]
  | cons x xs ih =>
    have hw : x.wellFormed = true := h x (List.mem_cons_self x xs)
    have ht := ih (fun y hy => h y (List.mem_cons_of_mem x hy))
    simp [parseEvents, hw, ht]

theorem diffReporterEvent_not_output (g : GenerateArgs) :
    isOutputEvent (diffReporterEvent g) = false ∧
    isGeneratorBuildEvent (diffReporterEvent g) = false := by
  cases hb : build_diff_reporter g <;>
    simp [diffReporterEvent, hb, isOutputEvent, isGeneratorBuildEvent]

theorem not_output_ne (e : Event) (h : isOutputEvent e = false) :
    (∀ p d, e ≠ Event.writeDiffJson p d) ∧ (∀ p, e ≠ Event.writeHtmlFile p) ∧
    (∀ p, e ≠ Event.writeCssFile p) ∧ (∀ p, e ≠ Event.writeJsonFile p) ∧
    e ≠ Event.writeStdout := by
  refine ⟨?_, ?_, ?_, ?_, ?_⟩ <;>
    first
      | (intro p d he; subst he; simp [isOutputEvent] at h)
      | (intro p he; subst he; simp [isOutputEvent] at h)
      | (intro he; subst he; simp [isOutputEvent] at h)

/-- Claim C2: a malformed coverage report aborts `generate_coverage_report`
before any report generator is constructed or any output (file or stdout)
is opened: the run yields no percentage and its event trace contains no
output event and no generator-construction event. -/
theorem c2_malformed_aborts (g : GenerateArgs)
    (h : ∃ x ∈ g.coverage_xml, x.wellFormed = false) :
    (generate_coverage_report g).2 = none ∧
    ∀ e ∈ (generate_coverage_report g).1,
      isOutputEvent e = false ∧ isGeneratorBuildEvent e = false := by
  have h2 : (parseEvents g.coverage_xml).2 = false := parseEvents_snd_false _ h
  have htr : generate_coverage_report g =
      (diffReporterEvent g :: (parseEvents g.coverage_xml).1, none) := by
    simp [generate_coverage_report, h2]
  rw [htr]
  refine ⟨rfl, ?_⟩
  intro e he
  rcases List.mem_cons.mp he with rfl | he'
  · exact diffReporterEvent_not_output g
  · rcases parseEvents_mem _ e he' with ⟨p, rfl⟩
    exact ⟨rfl, rfl⟩

theorem mem_reportMid (g : GenerateArgs) (e : Event) (he : e ∈ reportMid g) :
    (g.diff_json ≠ "" ∧
      e = Event.writeDiffJson g.diff_json (reporterGitDiffResult g)) ∨
    (∃ h', g.html_report = some h' ∧
      (e = Event.buildHtmlGenerator ∨ e = Event.writeHtmlFile h' ∨
       ∃ c, g.css_file = some c ∧ e = Event.writeCssFile c)) ∨
    (g.html_report = none ∧ ∃ j, g.json_report = some j ∧
      (e = Event.buildJsonGenerator ∨ e = Event.writeJsonFile j)) := by
  unfold reportMid at he
  rcases List.mem_append.mp he with h1 | h2
  · by_cases hdj : g.diff_json = ""
    · simp [hdj] at h1
    · simp only [ne_eq, hdj, not_false_eq_true, if_true,
        List.mem_singleton] at h1
      exact Or.inl ⟨hdj, h1⟩
  · rcases hh : g.html_report with _ | h'
    · rw [hh] at h2
      rcases hj : g.json_report with _ | j'
      · rw [hj] at h2; simp at h2
      · rw [hj] at h2
        simp only [List.mem_cons, List.mem_singleton, List.not_mem_nil,
          or_false] at h2
        exact Or.inr (Or.inr ⟨rfl, j', rfl, h2⟩)
    · rw [hh] at h2
      refine Or.inr (Or.inl ⟨h', rfl, ?_⟩)
      rcases List.mem_append.mp h2 with h3 | h4
      · simp only [List.mem_cons, List.mem_singleton, List.not_mem_nil,
          or_false] at h3
        rcases h3 with h3 | h3
        · exact Or.inl h3
        · exact Or.inr (Or.inl h3)
      · rcases hc : g.css_file with _ | c'
        · rw [hc] at h4; simp at h4
        · rw [hc] at h4
          simp only [List.mem_singleton] at h4
          exact Or.inr (Or.inr ⟨c', rfl, h4⟩)

theorem trace_eq_of_wf (g : GenerateArgs)
    (h : ∀ x ∈ g.coverage_xml, x.wellFormed = true) :
    generate_coverage_report g =
      (diffReporterEvent g ::
        (g.coverage_xml.map (fun x => Event.parseXml x.path)) ++
        Event.buildXmlCoverageReporter g.src_roots :: reportPhase g,
       some g.totalPercent) := by
  simp [generate_coverage_report, parseEvents_all_wf _ h]

theorem mem_trace (g : GenerateArgs)
    (h : ∀ x ∈ g.coverage_xml, x.wellFormed = true) (e : Event)
    (he : e ∈ (generate_coverage_report g).1) :
    e = diffReporterEvent g ∨ (∃ p, e = Event.parseXml p) ∨
    e = Event.buildXmlCoverageReporter g.src_roots ∨ e ∈ reportMid g ∨
    e = Event.buildStringGenerator ∨ e = Event.writeStdout := by
  rw [trace_eq_of_wf g h] at he
  rcases List.mem_cons.mp he with he | he
  · exact Or.inl he
  rcases List.mem_append.mp he with he | he
  · rcases List.mem_map.mp he with ⟨x, _, rfl⟩
    exact Or.inr (Or.inl ⟨x.path, rfl⟩)
  rcases List.mem_cons.mp he with he | he
  · exact Or.inr (Or.inr (Or.inl he))
  unfold reportPhase at he
  rcases List.mem_append.mp he with he | he
  · exact Or.inr (Or.inr (Or.inr (Or.inl he)))
  rcases List.mem_cons.mp he with he | he
  · exact Or.inr (Or.inr (Or.inr (Or.inr (Or.inl he))))
  rcases List.mem_singleton.mp he with rfl
  exact Or.inr (Or.inr (Or.inr (Or.inr (Or.inr rfl))))

/-- Claim C6: in every run whose coverage reports parse, the plain-text
summary is produced on standard output, after the optional HTML or JSON
artifact, and at most one of the HTML/JSON artifacts is written. -/
theorem c6_stdout_always (g : GenerateArgs)
    (h : ∀ x ∈ g.coverage_xml, x.wellFormed = true) :
    ∃ pre, (generate_coverage_report g).1 =
        pre ++ [Event.buildStringGenerator, Event.writeStdout] ∧
      Event.writeStdout ∉ pre ∧
      ¬ ((∃ p, Event.writeHtmlFile p ∈ (generate_coverage_report g).1) ∧
         (∃ p, Event.writeJsonFile p ∈ (generate_coverage_report g).1)) := by
  have hp := parseEvents_all_wf _ h
  refine ⟨diffReporterEvent g :: (parseEvents g.coverage_xml).1 ++
    Event.buildXmlCoverageReporter g.src_roots :: reportMid g, ?_, ?_, ?_⟩
  · simp [generate_coverage_report, hp, reportPhase]
  · intro hmem
    rcases List.mem_cons.mp hmem with he | he
    · exact (not_output_ne _ (diffReporterEvent_not_output g).1).2.2.2.2 he.symm
    rcases List.mem_append.mp he with he | he
    · rcases parseEvents_mem _ _ he with ⟨p, hp'⟩; cases hp'
    rcases List.mem_cons.mp he with he | he
    · cases he
    · rcases mem_reportMid g _ he with ⟨_, h1⟩ | ⟨h', _, h1 | h1 | ⟨c, _, h1⟩⟩ |
        ⟨_, j, _, h1 | h1⟩ <;> cases h1
  · rintro ⟨⟨ph, hh⟩, ⟨pj, hj⟩⟩
    have hout := (diffReporterEvent_not_output g).1
    rcases mem_trace g h _ hh with h1 | ⟨p, h1⟩ | h1 | h1 | h1 | h1
    · exact ((not_output_ne _ hout).2.1 ph) h1.symm
    · cases h1
    · cases h1
    · rcases mem_trace g h _ hj with h2 | ⟨p, h2⟩ | h2 | h2 | h2 | h2
      · exact ((not_output_ne _ hout).2.2.2.1 pj) h2.symm
      · cases h2
      · cases h2
      · -- both artifacts in the middle phase: contradiction on html_report
        rcases mem_reportMid g _ h1 with ⟨_, e1⟩ | ⟨h', hh', e1⟩ |
          ⟨hnone, j, hj', e1⟩
        · cases e1
        · rcases mem_reportMid g _ h2 with ⟨_, e2⟩ | ⟨h'', hh'', e2⟩ |
            ⟨hnone2, j, hj2, e2⟩
          · cases e2
          · rcases e2 with e2 | e2 | ⟨c, _, e2⟩ <;> cases e2
          · rw [hnone2] at hh'; cases hh'
        · rcases e1 with e1 | e1 <;> cases e1
      · cases h2
      · cases h2
    · cases h1
    · cases h1

theorem mem_trace_succ (g : GenerateArgs)
    (hpr : (parseEvents g.coverage_xml).2 = true) (e : Event)
    (he : e ∈ (generate_coverage_report g).1) :
    e = diffReporterEvent g ∨ (∃ p, e = Event.parseXml p) ∨
    e = Event.buildXmlCoverageReporter g.src_roots ∨ e ∈ reportMid g ∨
    e = Event.buildStringGenerator ∨ e = Event.writeStdout := by
  have htr : (generate_coverage_report g).1 =
      diffReporterEvent g :: (parseEvents g.coverage_xml).1 ++
        Event.buildXmlCoverageReporter g.src_roots :: reportPhase g := by
    simp [generate_coverage_report, hpr]
  rw [htr] at he
  rcases List.mem_cons.mp he with he | he
  · exact Or.inl he
  rcases List.mem_append.mp he with he | he
  · exact Or.inr (Or.inl (parseEvents_mem _ e he))
  rcases List.mem_cons.mp he with he | he
  · exact Or.inr (Or.inr (Or.inl he))
  unfold reportPhase at he
  rcases List.mem_append.mp he with he | he
  · exact Or.inr (Or.inr (Or.inr (Or.inl he)))
  rcases List.mem_cons.mp he with he | he
  · exact Or.inr (Or.inr (Or.inr (Or.inr (Or.inl he))))
  rcases List.mem_singleton.mp he with rfl
  exact Or.inr (Or.inr (Or.inr (Or.inr (Or.inr rfl))))

/-- Claim C8: when `--diff_json` is non-empty, the mapping the diff reporter
computed is serialized to exactly that file before any report generator is
constructed; when it is empty, no diff-json file is written at all. -/
theorem c8_diff_json (g : GenerateArgs)
    (h : ∀ x ∈ g.coverage_xml, x.wellFormed = true) :
    (g.diff_json ≠ "" →
      ∃ pre post, (generate_coverage_report g).1 =
          pre ++ Event.writeDiffJson g.diff_json (reporterGitDiffResult g) ::
            post ∧
        ∀ e ∈ pre, isGeneratorBuildEvent e = false) ∧
    (g.diff_json = "" →
      ∀ p d, Event.writeDiffJson p d ∉ (generate_coverage_report g).1) := by
  constructor
  · intro hdj
    refine ⟨diffReporterEvent g ::
      (g.coverage_xml.map (fun x => Event.parseXml x.path)) ++
      [Event.buildXmlCoverageReporter g.src_roots], ?_, ?_, ?_⟩
    · exact (match g.html_report with
        | some h' =>
          [Event.buildHtmlGenerator, Event.writeHtmlFile h'] ++
          (match g.css_file with
           | some c => [Event.writeCssFile c]
           | none => [])
        | none =>
          match g.json_report with
          | some j => [Event.buildJsonGenerator, Event.writeJsonFile j]
          | none => []) ++
        [Event.buildStringGenerator, Event.writeStdout]
    · rw [trace_eq_of_wf g h]
      simp [reportPhase, reportMid, hdj]
    · intro e he
      rcases List.mem_cons.mp he with rfl | he
      · exact (diffReporterEvent_not_output g).2
      rcases List.mem_append.mp he with he | he
      · rcases List.mem_map.mp he with ⟨x, _, rfl⟩
        rfl
      · rcases List.mem_singleton.mp he with rfl
        rfl
  · intro h0 p d hmem
    have hpr : (parseEvents g.coverage_xml).2 = true := by
      rw [parseEvents_all_wf _ h]
    rcases mem_trace_succ g hpr _ hmem with h1 | ⟨q, h1⟩ | h1 | h1 | h1 | h1
    · exact ((not_output_ne _ (diffReporterEvent_not_output g).1).1 p d) h1.symm
    · cases h1
    · cases h1
    · rcases mem_reportMid g _ h1 with ⟨hne, _⟩ | ⟨h', _, e1 | e1 | ⟨c, _, e1⟩⟩ |
        ⟨_, j, _, e1 | e1⟩ <;> first | (exact hne h0) | cases e1
    · cases h1
    · cases h1

/-- Claim C9: `--external-css-file` has no effect without `--html-report`:
when no HTML report is requested the CSS file path is never opened or
written, and the whole run is the same as if no CSS file had been given. -/
theorem c9_css_no_effect (g : GenerateArgs) (h : g.html_report = none) :
    (∀ p, Event.writeCssFile p ∉ (generate_coverage_report g).1) ∧
    (∀ c, generate_coverage_report { g with css_file := c } =
      generate_coverage_report { g with css_file := none }) := by
  constructor
  · intro p hmem
    by_cases hpr : (parseEvents g.coverage_xml).2 = true
    · rcases mem_trace_succ g hpr _ hmem with h1 | ⟨q, h1⟩ | h1 | h1 | h1 | h1
      · exact ((not_output_ne _ (diffReporterEvent_not_output g).1).2.2.1 p)
          h1.symm
      · cases h1
      · cases h1
      · rcases mem_reportMid g _ h1 with ⟨_, e1⟩ |
          ⟨h', hh', _⟩ | ⟨_, j, _, e1 | e1⟩
        · cases e1
        · rw [h] at hh'; cases hh'
        · cases e1
        · cases e1
      · cases h1
      · cases h1
    · have hpr' : (parseEvents g.coverage_xml).2 = false :=
        Bool.not_eq_true _ ▸ Bool.eq_false_iff.mpr hpr
      have htr : (generate_coverage_report g).1 =
          diffReporterEvent g :: (parseEvents g.coverage_xml).1 := by
        simp [generate_coverage_report, hpr']
      rw [htr] at hmem
      rcases List.mem_cons.mp hmem with h1 | h1
      · exact ((not_output_ne _ (diffReporterEvent_not_output g).1).2.2.1 p)
          h1.symm
      · rcases parseEvents_mem _ _ h1 with ⟨q, hq⟩; cases hq
  · intro c
    simp [generate_coverage_report, parseEvents, reportPhase, reportMid,
      reporterGitDiffResult, build_diff_reporter, diffReporterEvent,
      gitArgsOf, h]

/-! ### The coverage reporter's constructor arguments (claim C4)

Line 216 of the source constructs `XmlCoverageReporter(xml_roots, src_roots)`
— the exclude pattern list is not among its arguments. -/

/-- Counterexample to claim C4 as stated: with exclude pattern list
`["a.py"]` configured, the file `a.py` — which matches the pattern exactly —
is still among the Coverage Model's files, because line 216 does not pass
the exclude list to `XmlCoverageReporter`; indeed the coverage reporter's
constructor arguments are identical with and without the exclude setting. -/
theorem c4_exclude_counterexample :
    { baseArgs with exclude := some ["a.py"] }.exclude = some ["a.py"] ∧
    "a.py" ∈ coverageModelFiles
      (buildXmlCoverageReporterArgs { baseArgs with exclude := some ["a.py"] }) ∧
    buildXmlCoverageReporterArgs { baseArgs with exclude := some ["a.py"] } =
      buildXmlCoverageReporterArgs baseArgs := by
  refine ⟨rfl, ?_, rfl⟩
  decide

/-- Claim C4, amended: the exclude configuration is applied to the diff side
only — it is forwarded to the diff reporter's constructor, while the
coverage reporter's constructor arguments do not depend on it at all. -/
theorem c4_exclude_amended (g : GenerateArgs) (e : Option (List String)) :
    (gitArgsOf g).exclude = g.exclude ∧
    buildXmlCoverageReporterArgs { g with exclude := e } =
      buildXmlCoverageReporterArgs g := by
  exact ⟨rfl, rfl⟩

/-- Witness for C2 at a concrete configuration containing a malformed
coverage report. -/
theorem c2_malformed_aborts_witness :
    (∃ x ∈ c2args.coverage_xml, x.wellFormed = false) ∧
    (generate_coverage_report c2args).2 = none ∧
    ∀ e ∈ (generate_coverage_report c2args).1,
      isOutputEvent e = false ∧ isGeneratorBuildEvent e = false :=
  ⟨by decide, c2_malformed_aborts _ (by decide)⟩

/-- Witness for C6 at a concrete configuration requesting a JSON report. -/
theorem c6_stdout_always_witness :
    ∃ pre, (generate_coverage_report
        { baseArgs with json_report := some "report.json" }).1 =
        pre ++ [Event.buildStringGenerator, Event.writeStdout] ∧
      Event.writeStdout ∉ pre ∧
      ¬ ((∃ p, Event.writeHtmlFile p ∈ (generate_coverage_report
            { baseArgs with json_report := some "report.json" }).1) ∧
         (∃ p, Event.writeJsonFile p ∈ (generate_coverage_report
            { baseArgs with json_report := some "report.json" }).1)) :=
  c6_stdout_always _ (by decide)

/-- Witness for C8: with `--diff_json diff.json` the dump happens before the
generators; with the empty default no diff-json write occurs. -/
theorem c8_diff_json_witness :
    (∃ pre post, (generate_coverage_report
        { baseArgs with diff_json := "diff.json" }).1 =
        pre ++ Event.writeDiffJson "diff.json"
          (reporterGitDiffResult { baseArgs with diff_json := "diff.json" }) ::
          post ∧
      ∀ e ∈ pre, isGeneratorBuildEvent e = false) ∧
    (∀ p d, Event.writeDiffJson p d ∉
      (generate_coverage_report baseArgs).1) :=
  ⟨(c8_diff_json { baseArgs with diff_json := "diff.json" }
      (by decide)).1 (by decide),
   (c8_diff_json baseArgs (by decide)).2 rfl⟩

/-- Witness for C9 at a concrete CSS path with a JSON (non-HTML) run. -/
theorem c9_css_no_effect_witness :
    Event.writeCssFile "style.css" ∉ (generate_coverage_report c9args).1 ∧
    generate_coverage_report { c9args with css_file := some "style.css" } =
      generate_coverage_report { c9args with css_file := none } := by
  have h := c9_css_no_effect c9args rfl
  exact ⟨h.1 "style.css", h.2 (some "style.css")⟩

/-! ### Directory-comparison mode (claims C5, C10) -/

theorem isPre_append (p t : List Char) : isPre p (p ++ t) = true := by
  induction p with
  | nil => rfl
  | cons a as ih => simp [isPre, ih]

theorem noOccurB_cons (pat : List Char) (c : Char) (rest : List Char) :
    noOccurB pat (c :: rest) =
      (!(isPre pat (c :: rest)) && noOccurB pat rest) := by
  simp [noOccurB, List.tails_cons]

theorem removeAllF_no_occur (pat : List Char) :
    ∀ (fuel : Nat) (l : List Char), l.length ≤ fuel →
      noOccurB pat l = true → removeAllF fuel l pat = l := by
  intro fuel
  induction fuel with
  | zero =>
    intro l hl _
    have : l = [] := List.length_eq_zero.mp (Nat.le_zero.mp hl)
    subst this; rfl
  | succ fuel ih =>
    intro l hl hno
    cases l with
    | nil => rfl
    | cons c rest =>
      rw [noOccurB_cons] at hno
      have h1 : isPre pat (c :: rest) = false := by
        cases hpre : isPre pat (c :: rest)
        · rfl
        · rw [hpre] at hno; simp at hno
      have h2 : noOccurB pat rest = true := by
        rw [h1] at hno; simpa using hno
      have h3 : rest.length ≤ fuel := by
        simp only [List.length_cons] at hl; omega
      unfold removeAllF
      rw [h1]
      simp only [Bool.and_false, Bool.false_eq_true, if_false]
      rw [ih rest h3 h2]

theorem isPre_cons_append (p : Char) (ps t : List Char) :
    isPre (p :: ps) (p :: (ps ++ t)) = true := by
  simp [isPre, isPre_append]

theorem removeAllF_cons_pos (fuel : Nat) (c : Char) (s pat : List Char)
    (h : (decide (pat ≠ []) && isPre pat (c :: s)) = true) :
    removeAllF (fuel + 1) (c :: s) pat =
      removeAllF fuel ((c :: s).drop pat.length) pat := by
  show (if (decide (pat ≠ []) && isPre pat (c :: s)) = true then
      removeAllF fuel ((c :: s).drop pat.length) pat
    else c :: removeAllF fuel s pat) =
    removeAllF fuel ((c :: s).drop pat.length) pat
  rw [if_pos h]

theorem removeAllF_eat (fuel : Nat) (pat rest : List Char) (hne : pat ≠ [])
    (hlen : pat.length + rest.length ≤ fuel) (hno : noOccurB pat rest = true) :
    removeAllF fuel (pat ++ rest) pat = rest := by
  cases pat with
  | nil => exact absurd rfl hne
  | cons p ps =>
    cases fuel with
    | zero => simp only [List.length_cons] at hlen; omega
    | succ fuel =>
      have hcons : (p :: ps) ++ rest = p :: (ps ++ rest) :=
        List.cons_append _ _ _
      have hrest : rest.length ≤ fuel := by
        simp only [List.length_cons] at hlen; omega
      rw [hcons, removeAllF_cons_pos fuel p (ps ++ rest) (p :: ps)
        (by simp [isPre_cons_append]),
        show (p :: (ps ++ rest)).drop (p :: ps).length = rest from by
          simp only [List.length_cons, List.drop_succ_cons]
          exact List.drop_left _ _]
      exact removeAllF_no_occur _ fuel rest hrest hno

theorem stripTargetDir_strips (td rest : String)
    (hno : noOccurB (td ++ "/").data rest.data = true) :
    stripTargetDir td ((td ++ "/") ++ rest) = rest := by
  unfold stripTargetDir
  have hdata : ((td ++ "/") ++ rest).data = (td ++ "/").data ++ rest.data :=
    String.data_append _ _
  have hdata2 : (td ++ "/").data = td.data ++ ['/'] := by
    rw [String.data_append]
  have hpre : isPre td.data ((td ++ "/") ++ rest).data = true := by
    rw [hdata, hdata2, List.append_assoc]
    exact isPre_append td.data _
  rw [hpre]
  simp only [if_true]
  unfold pyRemoveAll
  have hr : removeAllF ((td ++ "/") ++ rest).data.length
      ((td ++ "/") ++ rest).data (td ++ "/").data = rest.data := by
    rw [hdata]
    exact removeAllF_eat _ _ _
      (by rw [hdata2]; simp)
      (by simp [List.length_append]; omega)
      hno
  rw [hr]

theorem foldl_dictAppend_single (k : String) (ls : List DiffLine) :
    ∀ vs, ls.foldl (fun d e => dictAppend d k e.lineNo) [(k, vs)] =
      [(k, vs ++ ls.map DiffLine.lineNo)] := by
  induction ls with
  | nil => intro vs; simp
  | cons l ls ih =>
    intro vs
    have h1 : dictAppend [(k, vs)] k l.lineNo = [(k, vs ++ [l.lineNo])] := by
      simp [dictAppend]
    simp only [List.foldl_cons, h1, ih, List.map_cons]
    simp

theorem addFile_nil (td : String) (l : DiffLine) (ls : List DiffLine) :
    addFile td [] (l :: ls) = [(stripTargetDir td l.filePath,
      (l :: ls).map DiffLine.lineNo)] := by
  unfold addFile
  simp only [List.foldl_cons]
  have h0 : dictAppend [] (stripTargetDir td l.filePath) l.lineNo =
      [(stripTargetDir td l.filePath, [l.lineNo])] := by
    simp [dictAppend]
  rw [h0, foldl_dictAppend_single]
  simp

theorem fileModeGitDiff_full (td p : String) (n : Nat) (hn : 0 < n) :
    fileModeGitDiff td (compareDirFullFile [(p, n)]) =
      [(stripTargetDir td p, oneTo n)] := by
  obtain ⟨m, rfl⟩ : ∃ m, n = m + 1 := ⟨n - 1, by omega⟩
  unfold fileModeGitDiff compareDirFullFile
  simp only [List.map_cons, List.map_nil, List.foldl_cons, List.foldl_nil]
  rw [List.range_succ_eq_map, List.map_cons, addFile_nil]
  simp [oneTo, List.range_succ_eq_map, List.map_map, Function.comp]

/-- Claim C5: a non-empty `--target_dir` switches the diff source to the
directory-comparison reporter, whose changed-line mapping comes from
comparing `src_roots[0]` against the target directory; with the
spec-modelled full-file `difile` comparison the changed lines of an
`n`-line compared file are exactly `1..n`; a key carrying the
target-directory prefix has that prefix stripped; and the empty default
uses the ordinary git-diff reporter. -/
theorem c5_target_dir_mode (g : GenerateArgs) (td p rest : String) (n : Nat) :
    (g.target_dir ≠ "" →
      build_diff_reporter g =
        DiffReporter.fileDiff (gitArgsOf g) g.target_dir ∧
      reporterGitDiffResult g =
        fileModeGitDiff g.target_dir
          (g.dirCompare (g.src_roots.headD "") g.target_dir)) ∧
    (g.target_dir = "" →
      build_diff_reporter g = DiffReporter.gitDiff (gitArgsOf g) ∧
      reporterGitDiffResult g = g.gitDiffDict) ∧
    (0 < n → fileModeGitDiff td (compareDirFullFile [(p, n)]) =
      [(stripTargetDir td p, oneTo n)]) ∧
    (noOccurB (td ++ "/").data rest.data = true →
      stripTargetDir td ((td ++ "/") ++ rest) = rest) := by
  refine ⟨?_, ?_, fileModeGitDiff_full td p n, stripTargetDir_strips td rest⟩
  · intro h
    constructor
    · simp [build_diff_reporter, h]
    · simp [reporterGitDiffResult, build_diff_reporter, h]
  · intro h
    constructor
    · simp [build_diff_reporter, h]
    · simp [reporterGitDiffResult, build_diff_reporter, h]

/-- Witness for C5: the concrete directory-mode run compares `src` against
`build`, reports lines `[1, 2, 3]` for the three-line file, and strips the
`build/` prefix; the default empty `target_dir` yields the git reporter. -/
theorem c5_target_dir_mode_witness :
    (build_diff_reporter c5args =
        DiffReporter.fileDiff (gitArgsOf c5args) c5args.target_dir ∧
      reporterGitDiffResult c5args =
        fileModeGitDiff c5args.target_dir
          (c5args.dirCompare (c5args.src_roots.headD "") c5args.target_dir)) ∧
    (build_diff_reporter baseArgs = DiffReporter.gitDiff (gitArgsOf baseArgs) ∧
      reporterGitDiffResult baseArgs = baseArgs.gitDiffDict) ∧
    fileModeGitDiff "build" (compareDirFullFile [("build/a.py", 3)]) =
      [("a.py", [1, 2, 3])] ∧
    stripTargetDir "build" (("build" ++ "/") ++ "a.py") = "a.py" := by
  refine ⟨(c5_target_dir_mode c5args "build" "build/a.py" "a.py" 3).1
      (by decide),
    (c5_target_dir_mode baseArgs "build" "build/a.py" "a.py" 3).2.1 rfl,
    ?_, (c5_target_dir_mode c5args "build" "build/a.py" "a.py" 3).2.2.2
      (by decide)⟩
  exact ((c5_target_dir_mode c5args "build" "build/a.py" "a.py" 3).2.2.1
    (by decide)).trans (by decide)

/-- Claim C10: in directory-comparison mode the changed-line mapping is
independent of the git-related configuration — changing the compare branch,
the staged/unstaged flags or the diff range notation leaves
`FileDiffReporter._git_diff` unchanged. -/
theorem c10_dir_mode_git_independent (g : GenerateArgs) (b nt : String)
    (s u : Bool) (h : g.target_dir ≠ "") :
    reporterGitDiffResult
      { g with
        compare_branch := b
        ignore_staged := s
        ignore_unstaged := u
        diff_range := nt } = reporterGitDiffResult g := by
  simp [reporterGitDiffResult, build_diff_reporter, h, gitArgsOf]

/-- Witness for C10 at the concrete directory-mode configuration. -/
theorem c10_dir_mode_git_independent_witness :
    reporterGitDiffResult
      { c5args with
        compare_branch := "develop"
        ignore_staged := true
        ignore_unstaged := true
        diff_range := ".." } = reporterGitDiffResult c5args :=
  c10_dir_mode_git_independent c5args "develop" ".." true true (by decide)

/-- Claim C1: the gate is inclusive and maps directly to the exit code: the
exit code is 0 exactly when the percentage is greater than or equal to the
threshold, and otherwise the exit code is 1 and an error message naming the
threshold value is logged. -/
theorem c1_gate_exit_and_message (p t : ℚ) :
    ((main_gate p t).exitCode = 0 ↔ p ≥ t) ∧
    (p < t → (main_gate p t).exitCode = 1 ∧
      (main_gate p t).loggedErrors = [failure_message t] ∧
      ∃ pre post, failure_message t = pre ++ toString t ++ post) := by
  constructor
  · constructor
    · intro h
      by_contra hlt
      simp only [main_gate, if_neg hlt] at h
      exact absurd h (by decide)
    · intro h
      simp [main_gate, if_pos h]
  · intro hlt
    have hn : ¬ p ≥ t := not_le.mpr hlt
    refine ⟨by simp [main_gate, if_neg hn], by simp [main_gate, if_neg hn], ?_⟩
    exact ⟨"Failure. Coverage is below ", "%.", rfl⟩

/-- Witness for C1 at the spec's scenario: threshold 80 with percentage 79.9
gives exit code 1 and a message naming 80; exactly 80.0 gives exit code 0. -/
theorem c1_gate_witness :
    (main_gate (799/10 : ℚ) 80).exitCode = 1 ∧
    (main_gate (799/10 : ℚ) 80).loggedErrors = [failure_message 80] ∧
    failure_message (80 : ℚ) = "Failure. Coverage is below 80%." ∧
    (main_gate 80 80).exitCode = 0 := by
  have h1 := (c1_gate_exit_and_message (799/10 : ℚ) 80).2 (by norm_num)
  have h2 := (c1_gate_exit_and_message (80 : ℚ) 80).1.mpr (by norm_num)
  exact ⟨h1.1, h1.2.1, by decide, h2⟩

/-! ### Parser lemmas (claims C3, C7) -/

theorem mem_of_mem_dropWhile {α : Type} (p : α → Bool) (l : List α) (x : α)
    (h : x ∈ l.dropWhile p) : x ∈ l := by
  rw [← List.takeWhile_append_dropWhile (p := p) (l := l)]
  exact List.mem_append_right _ h

theorem mem_dropWhile_of_optionLike (l : List String) (x : String)
    (hx : isOptionLike x = true) (h : x ∈ l) :
    x ∈ l.dropWhile (fun s => !isOptionLike s) := by
  rw [← List.takeWhile_append_dropWhile
    (p := fun s => !isOptionLike s) (l := l)] at h
  rcases List.mem_append.mp h with h1 | h1
  · have h2 := List.mem_takeWhile_imp h1
    rw [hx] at h2
    cases h2
  · exact h1

theorem valueSetterFor_fields (a : String)
    (f : ParsedArgs → String → ParsedArgs) (hf : valueSetterFor a = some f)
    (acc : ParsedArgs) (v : String) :
    (f acc v).fail_under = acc.fail_under ∧
    (f acc v).html_report = acc.html_report ∧
    (f acc v).json_report = acc.json_report := by
  unfold valueSetterFor at hf
  split_ifs at hf <;> cases hf <;> exact ⟨rfl, rfl, rfl⟩

theorem flagSetterFor_fields (a : String) (f : ParsedArgs → ParsedArgs)
    (hf : flagSetterFor a = some f) (acc : ParsedArgs) :
    (f acc).fail_under = acc.fail_under ∧
    (f acc).html_report = acc.html_report ∧
    (f acc).json_report = acc.json_report := by
  unfold flagSetterFor at hf
  split_ifs at hf <;> cases hf <;> exact ⟨rfl, rfl, rfl⟩

theorem multiSetterFor_fields (a : String)
    (f : ParsedArgs → List String → ParsedArgs)
    (hf : multiSetterFor a = some f) (acc : ParsedArgs) (vs : List String) :
    (f acc vs).fail_under = acc.fail_under ∧
    (f acc vs).html_report = acc.html_report ∧
    (f acc vs).json_report = acc.json_report := by
  unfold multiSetterFor at hf
  split_ifs at hf <;> cases hf <;> exact ⟨rfl, rfl, rfl⟩

theorem parseStep_spec (a : String) (rest : List String) (acc : ParsedArgs)
    (pd : Bool) (args' : List String) (acc' : ParsedArgs) (pd' : Bool)
    (h : parseStep a rest acc pd = some (args', acc', pd')) :
    (∀ x, x ∈ args' → x ∈ rest) ∧
    (∀ x, isOptionLike x = true → x ∈ rest → x ∈ args') ∧
    (a ≠ "--fail-under" → acc'.fail_under = acc.fail_under) ∧
    (a ≠ "--html-report" → acc'.html_report = acc.html_report) ∧
    (a ≠ "--json-report" → acc'.json_report = acc.json_report) ∧
    (a = "--html-report" →
      acc.json_report.isSome = false ∧ acc'.html_report.isSome = true) ∧
    (a = "--json-report" →
      acc.html_report.isSome = false ∧ acc'.json_report.isSome = true) := by
  unfold parseStep at h
  by_cases ha1 : a = "--html-report"
  · rw [if_pos ha1] at h
    cases rest with
    | nil => cases h
    | cons v rest' =>
      dsimp only at h
      by_cases hv : isOptionLike v || acc.json_report.isSome
      · rw [if_pos hv] at h; cases h
      · rw [if_neg hv] at h
        simp only [Bool.or_eq_true, not_or, Bool.not_eq_true] at hv
        obtain ⟨hv1, hv2⟩ := hv
        obtain ⟨rfl, rfl, rfl⟩ : rest' = args' ∧
            ({ acc with html_report := some v } = acc') ∧ pd = pd' := by
          simpa using h
        refine ⟨fun x hx => List.mem_cons_of_mem _ hx, ?_,
          fun _ => rfl, fun hne => absurd ha1 hne, fun _ => rfl,
          fun _ => ⟨hv2, rfl⟩, ?_⟩
        · intro x hopt hx
          rcases List.mem_cons.mp hx with rfl | hx
          · rw [hopt] at hv1; cases hv1
          · exact hx
        · intro hj
          rw [ha1] at hj
          exact absurd hj (by decide)
  · rw [if_neg ha1] at h
    by_cases ha2 : a = "--json-report"
    · rw [if_pos ha2] at h
      cases rest with
      | nil => cases h
      | cons v rest' =>
        dsimp only at h
        by_cases hv : isOptionLike v || acc.html_report.isSome
        · rw [if_pos hv] at h; cases h
        · rw [if_neg hv] at h
          simp only [Bool.or_eq_true, not_or, Bool.not_eq_true] at hv
          obtain ⟨hv1, hv2⟩ := hv
          obtain ⟨rfl, rfl, rfl⟩ : rest' = args' ∧
              ({ acc with json_report := some v } = acc') ∧ pd = pd' := by
            simpa using h
          refine ⟨fun x hx => List.mem_cons_of_mem _ hx, ?_,
            fun _ => rfl, fun _ => rfl, fun hne => absurd ha2 hne,
            ?_, fun _ => ⟨hv2, rfl⟩⟩
          · intro x hopt hx
            rcases List.mem_cons.mp hx with rfl | hx
            · rw [hopt] at hv1; cases hv1
            · exact hx
          · intro hh
            rw [ha2] at hh
            exact absurd hh (by decide)
    · rw [if_neg ha2] at h
      by_cases ha3 : a = "--fail-under"
      · rw [if_pos ha3] at h
        cases rest with
        | nil => cases h
        | cons v rest' =>
          dsimp only at h
          by_cases hv : isOptionLike v
          · rw [if_pos hv] at h; cases h
          · rw [if_neg hv] at h
            cases hq : parseDecimal v with
            | none => rw [hq] at h; cases h
            | some q =>
              rw [hq] at h
              obtain ⟨rfl, rfl, rfl⟩ : rest' = args' ∧
                  ({ acc with fail_under := q } = acc') ∧ pd = pd' := by
                simpa using h
              rw [Bool.not_eq_true] at hv
              refine ⟨fun x hx => List.mem_cons_of_mem _ hx, ?_,
                fun hne => absurd ha3 hne, fun _ => rfl, fun _ => rfl,
                ?_, ?_⟩
              · intro x hopt hx
                rcases List.mem_cons.mp hx with rfl | hx
                · rw [hopt] at hv; cases hv
                · exact hx
              · intro hh; rw [ha3] at hh; exact absurd hh (by decide)
              · intro hj; rw [ha3] at hj; exact absurd hj (by decide)
      · rw [if_neg ha3] at h
        by_cases ha4 : a = "--diff-range-notation"
        · rw [if_pos ha4] at h
          cases rest with
          | nil => cases h
          | cons v rest' =>
            dsimp only at h
            by_cases hv : isOptionLike v
            · rw [if_pos hv] at h; cases h
            · rw [if_neg hv] at h
              by_cases hch : v = "..." ∨ v = ".."
              · rw [if_pos hch] at h
                obtain ⟨rfl, rfl, rfl⟩ : rest' = args' ∧
                    ({ acc with diff_range := v } = acc') ∧ pd = pd' := by
                  simpa using h
                rw [Bool.not_eq_true] at hv
                refine ⟨fun x hx => List.mem_cons_of_mem _ hx, ?_,
                  fun _ => rfl, fun _ => rfl, fun _ => rfl,
                  fun hh => absurd hh ha1, fun hj => absurd hj ha2⟩
                intro x hopt hx
                rcases List.mem_cons.mp hx with rfl | hx
                · rw [hopt] at hv; cases hv
                · exact hx
              · rw [if_neg hch] at h; cases h
        · rw [if_neg ha4] at h
          by_cases ha5 : a = "--version"
          · rw [if_pos ha5] at h; cases h
          · rw [if_neg ha5] at h
            cases hvs : valueSetterFor a with
            | some f =>
              rw [hvs] at h
              dsimp only at h
              cases rest with
              | nil => cases h
              | cons v rest' =>
                dsimp only at h
                by_cases hv : isOptionLike v
                · rw [if_pos hv] at h; cases h
                · rw [if_neg hv] at h
                  obtain ⟨rfl, rfl, rfl⟩ : rest' = args' ∧
                      (f acc v = acc') ∧ pd = pd' := by
                    simpa using h
                  rw [Bool.not_eq_true] at hv
                  have hfields := valueSetterFor_fields a f hvs acc v
                  refine ⟨fun x hx => List.mem_cons_of_mem _ hx, ?_,
                    fun _ => hfields.1, fun _ => hfields.2.1,
                    fun _ => hfields.2.2,
                    fun hh => absurd hh ha1, fun hj => absurd hj ha2⟩
                  intro x hopt hx
                  rcases List.mem_cons.mp hx with rfl | hx
                  · rw [hopt] at hv; cases hv
                  · exact hx
            | none =>
              rw [hvs] at h
              dsimp only at h
              cases hfs : flagSetterFor a with
              | some f =>
                rw [hfs] at h
                dsimp only at h
                obtain ⟨rfl, rfl, rfl⟩ : rest = args' ∧ (f acc = acc') ∧
                    pd = pd' := by
                  simpa using h
                have hfields := flagSetterFor_fields a f hfs acc
                exact ⟨fun x hx => hx, fun x _ hx => hx,
                  fun _ => hfields.1, fun _ => hfields.2.1,
                  fun _ => hfields.2.2,
                  fun hh => absurd hh ha1, fun hj => absurd hj ha2⟩
              | none =>
                rw [hfs] at h
                dsimp only at h
                cases hms : multiSetterFor a with
                | some f =>
                  rw [hms] at h
                  dsimp only at h
                  by_cases he :
                      (rest.takeWhile (fun s => !isOptionLike s)).isEmpty
                  · rw [if_pos he] at h; cases h
                  · rw [if_neg he] at h
                    obtain ⟨rfl, rfl, rfl⟩ :
                        rest.dropWhile (fun s => !isOptionLike s) = args' ∧
                        (f acc (rest.takeWhile (fun s => !isOptionLike s)) =
                          acc') ∧ pd = pd' := by
                      simpa using h
                    have hfields := multiSetterFor_fields a f hms acc
                      (rest.takeWhile (fun s => !isOptionLike s))
                    exact ⟨mem_of_mem_dropWhile _ rest,
                      fun x hopt hx => mem_dropWhile_of_optionLike rest x
                        hopt hx,
                      fun _ => hfields.1, fun _ => hfields.2.1,
                      fun _ => hfields.2.2,
                      fun hh => absurd hh ha1, fun hj => absurd hj ha2⟩
                | none =>
                  rw [hms] at h
                  dsimp only at h
                  by_cases hoa : isOptionLike a
                  · rw [if_pos hoa] at h; cases h
                  · rw [if_neg hoa] at h
                    by_cases hpd : pd = true
                    · rw [if_pos hpd] at h; cases h
                    · rw [if_neg hpd] at h
                      obtain ⟨rfl, rfl, rfl⟩ :
                          rest.dropWhile (fun s => !isOptionLike s) = args' ∧
                          ({ acc with coverage_xml :=
                              a :: (rest.takeWhile (fun s => !isOptionLike s)) }
                            = acc') ∧
                          true = pd' := by
                        simpa using h
                      exact ⟨mem_of_mem_dropWhile _ rest,
                        fun x hopt hx => mem_dropWhile_of_optionLike rest x
                          hopt hx,
                        fun _ => rfl, fun _ => rfl, fun _ => rfl,
                        fun hh => absurd hh ha1, fun hj => absurd hj ha2⟩

theorem parseLoop_nil (fuel : Nat) (acc : ParsedArgs) (pd : Bool)
    (r : ParsedArgs) (h : parseLoop fuel [] acc pd = some r) : r = acc := by
  cases fuel <;>
    · unfold parseLoop at h
      split_ifs at h
      exact (Option.some.injEq _ _ ▸ h).symm

theorem parseLoop_exclusive :
    ∀ (fuel : Nat) (args : List String) (acc : ParsedArgs) (pd : Bool)
      (r : ParsedArgs), parseLoop fuel args acc pd = some r →
      ¬ (acc.html_report.isSome = true ∧ acc.json_report.isSome = true) →
      ¬ ((acc.html_report.isSome = true ∨ "--html-report" ∈ args) ∧
         (acc.json_report.isSome = true ∨ "--json-report" ∈ args)) := by
  intro fuel
  induction fuel with
  | zero =>
    intro args acc pd r hsome hok
    cases args with
    | nil =>
      simp only [List.not_mem_nil, or_false]
      exact hok
    | cons a rest => cases hsome
  | succ fuel ih =>
    intro args acc pd r hsome hok
    cases args with
    | nil =>
      simp only [List.not_mem_nil, or_false]
      exact hok
    | cons a rest =>
      unfold parseLoop at hsome
      cases hstep : parseStep a rest acc pd with
      | none => rw [hstep] at hsome; cases hsome
      | some t =>
        obtain ⟨args', acc', pd'⟩ := t
        rw [hstep] at hsome
        dsimp only at hsome
        have spec := parseStep_spec a rest acc pd args' acc' pd' hstep
        by_cases ha1 : a = "--html-report"
        · have h5 := spec.2.2.2.2.2.1 ha1
          have hjp : acc'.json_report = acc.json_report :=
            spec.2.2.2.2.1 (by rw [ha1]; decide)
          have hok' : ¬ (acc'.html_report.isSome = true ∧
              acc'.json_report.isSome = true) := by
            rintro ⟨_, hj⟩
            rw [hjp, h5.1] at hj
            cases hj
          rintro ⟨Hh, Hj⟩
          have hjm : "--json-report" ∈ args' := by
            rcases Hj with hj | hj
            · rw [h5.1] at hj; cases hj
            · rcases List.mem_cons.mp hj with hj | hj
              · have : (a : String) = "--json-report" := hj.symm
                rw [ha1] at this
                exact absurd this (by decide)
              · exact spec.2.1 _ (by decide) hj
          exact ih args' acc' pd' r hsome hok' ⟨Or.inl h5.2, Or.inr hjm⟩
        · by_cases ha2 : a = "--json-report"
          · have h6 := spec.2.2.2.2.2.2 ha2
            have hhp : acc'.html_report = acc.html_report :=
              spec.2.2.2.1 ha1
            have hok' : ¬ (acc'.html_report.isSome = true ∧
                acc'.json_report.isSome = true) := by
              rintro ⟨hh, _⟩
              rw [hhp, h6.1] at hh
              cases hh
            rintro ⟨Hh, Hj⟩
            have hhm : "--html-report" ∈ args' := by
              rcases Hh with hh | hh
              · rw [h6.1] at hh; cases hh
              · rcases List.mem_cons.mp hh with hh | hh
                · have : (a : String) = "--html-report" := hh.symm
                  rw [ha2] at this
                  exact absurd this (by decide)
                · exact spec.2.1 _ (by decide) hh
            exact ih args' acc' pd' r hsome hok' ⟨Or.inr hhm, Or.inl h6.2⟩
          · have hhp : acc'.html_report = acc.html_report :=
              spec.2.2.2.1 ha1
            have hjp : acc'.json_report = acc.json_report :=
              spec.2.2.2.2.1 ha2
            have hok' : ¬ (acc'.html_report.isSome = true ∧
                acc'.json_report.isSome = true) := by
              rw [hhp, hjp]; exact hok
            rintro ⟨Hh, Hj⟩
            apply ih args' acc' pd' r hsome hok'
            constructor
            · rcases Hh with hh | hh
              · exact Or.inl (by rw [hhp]; exact hh)
              · rcases List.mem_cons.mp hh with hh | hh
                · exact absurd hh.symm ha1
                · exact Or.inr (spec.2.1 _ (by decide) hh)
            · rcases Hj with hj | hj
              · exact Or.inl (by rw [hjp]; exact hj)
              · rcases List.mem_cons.mp hj with hj | hj
                · exact absurd hj.symm ha2
                · exact Or.inr (spec.2.1 _ (by decide) hj)

theorem parseLoop_fail_under :
    ∀ (fuel : Nat) (args : List String) (acc : ParsedArgs) (pd : Bool)
      (r : ParsedArgs), parseLoop fuel args acc pd = some r →
      "--fail-under" ∉ args → r.fail_under = acc.fail_under := by
  intro fuel
  induction fuel with
  | zero =>
    intro args acc pd r hsome _
    cases args with
    | nil => rw [parseLoop_nil 0 acc pd r hsome]
    | cons a rest => cases hsome
  | succ fuel ih =>
    intro args acc pd r hsome hnm
    cases args with
    | nil => rw [parseLoop_nil (fuel + 1) acc pd r hsome]
    | cons a rest =>
      unfold parseLoop at hsome
      cases hstep : parseStep a rest acc pd with
      | none => rw [hstep] at hsome; cases hsome
      | some t =>
        obtain ⟨args', acc', pd'⟩ := t
        rw [hstep] at hsome
        dsimp only at hsome
        have spec := parseStep_spec a rest acc pd args' acc' pd' hstep
        have hane : a ≠ "--fail-under" := by
          intro he
          exact hnm (by rw [← he]; exact List.mem_cons_self a rest)
        have hnm' : "--fail-under" ∉ args' := fun hx =>
          hnm (List.mem_cons_of_mem _ (spec.1 _ hx))
        rw [ih args' acc' pd' r hsome hnm', spec.2.2.1 hane]

/-- Claim C3: `--html-report` and `--json-report` are mutually exclusive at
argument-parsing time: any argv containing both option tokens fails to
parse rather than silently picking one output format. -/
theorem c3_html_json_mutually_exclusive (argv : List String)
    (h1 : "--html-report" ∈ argv) (h2 : "--json-report" ∈ argv) :
    parse_coverage_args argv = none := by
  cases hp : parse_coverage_args argv with
  | none => rfl
  | some r =>
    have hx := parseLoop_exclusive argv.length argv initialArgs false r hp
      (by simp [initialArgs])
    exact absurd ⟨Or.inr h1, Or.inr h2⟩ hx

/-- Witness for C3: a concrete argv requesting both reports is rejected. -/
theorem c3_html_json_mutually_exclusive_witness :
    parse_coverage_args
      ["cov.xml", "--html-report", "h.html", "--json-report", "r.json"] =
      none :=
  c3_html_json_mutually_exclusive _ (by decide) (by decide)

/-- Claim C7: the failure threshold defaults to 0: in any successfully
parsed run whose argv does not mention `--fail-under`, the parsed
`fail_under` is 0 and, for any aggregate percentage in [0, 100], the gate
returns exit code 0. -/
theorem c7_default_threshold (argv : List String) (a : ParsedArgs) (p : ℚ)
    (hp : parse_coverage_args argv = some a)
    (habs : "--fail-under" ∉ argv) (h0 : 0 ≤ p) (_h100 : p ≤ 100) :
    a.fail_under = 0 ∧ (main_gate p a.fail_under).exitCode = 0 := by
  have hf : a.fail_under = 0 :=
    parseLoop_fail_under argv.length argv initialArgs false a hp habs
  refine ⟨hf, ?_⟩
  rw [hf]
  simp [main_gate, h0]

/-- Witness for C7: `["coverage.xml"]` parses with `fail_under = 0` and a
50% run passes the gate. -/
theorem c7_default_threshold_witness :
    parse_coverage_args ["coverage.xml"] = some c7sample ∧
    c7sample.fail_under = 0 ∧
    (main_gate 50 c7sample.fail_under).exitCode = 0 := by
  have hp : parse_coverage_args ["coverage.xml"] = some c7sample := by decide
  exact ⟨hp, c7_default_threshold ["coverage.xml"] c7sample 50 hp
    (by decide) (by norm_num) (by norm_num)⟩
